import Mathlib

/-!
Verification development for the Slack-based interactive approval gateway of
the `claude-code-slack-bot` repository.

The TypeScript sources are shallowly embedded: pure functions become Lean
functions, the file-polling approval wait becomes an explicit step function
over tick environments, and the backup directory becomes a list of file
names.  JavaScript regular expressions are embedded via a small Brzozowski
derivative matcher; JS `RegExp.test` semantics (search anywhere, `^`/`$`
anchors) are modelled by appending an end-of-string sentinel character that
no character class may consume, with `$` translated to the sentinel.
-/

set_option maxRecDepth 10000

namespace SlackBot

/-- End-of-string sentinel used to model the `$` anchor of JS regexes.
No ordinary character class matches it. -/
def eosChar : Char := '\x00'

/-- Regular expressions over characters (character classes as predicates). -/
inductive Re where
  | emp : Re
  | eps : Re
  | chr : (Char → Bool) → Re
  | seq : Re → Re → Re
  | alt : Re → Re → Re
  | star : Re → Re

/-- Does the regex accept the empty string? -/
def Re.nullable : Re → Bool
  | .emp => false
  | .eps => true
  | .chr _ => false
  | .seq a b => a.nullable && b.nullable
  | .alt a b => a.nullable || b.nullable
  | .star _ => true

/-- Sequencing smart constructor (keeps derivatives small). -/
def Re.mkSeq : Re → Re → Re
  | .emp, _ => .emp
  | .eps, b => b
  | a, .eps => a
  | a, b => .seq a b

/-- Alternation smart constructor (keeps derivatives small). -/
def Re.mkAlt : Re → Re → Re
  | .emp, b => b
  | a, .emp => a
  | a, b => .alt a b

/-- Brzozowski derivative of a regex with respect to a character. -/
def Re.deriv : Re → Char → Re
  | .emp, _ => .emp
  | .eps, _ => .emp
  | .chr p, c => if p c then .eps else .emp
  | .seq a b, c =>
      if a.nullable then Re.mkAlt (Re.mkSeq (a.deriv c) b) (b.deriv c)
      else Re.mkSeq (a.deriv c) b
  | .alt a b, c => Re.mkAlt (a.deriv c) (b.deriv c)
  | .star a, c => Re.mkSeq (a.deriv c) (.star a)

/-- Does the regex match some prefix of the character list? -/
def Re.matchSomePre (r : Re) : List Char → Bool
  | [] => r.nullable
  | c :: s => r.nullable || (r.deriv c).matchSomePre s

/-- Does the regex match starting at some position of the character list? -/
def Re.searchIn (r : Re) : List Char → Bool
  | [] => r.nullable
  | c :: s => r.matchSomePre (c :: s) || r.searchIn s

/-- A JS regex literal: body, whether it is `^`-anchored, and its source
text (used by the code when rendering a reason string). -/
structure JSRegex where
  anchored : Bool
  re : Re
  src : String

/-- Model of JS `RegExp.prototype.test`: search for a match anywhere
(or only at the start when `^`-anchored) in the input extended with the
end-of-string sentinel. -/
def JSRegex.test (p : JSRegex) (s : String) : Bool :=
  let cs := s.data ++ [eosChar]
  if p.anchored then p.re.matchSomePre cs else p.re.searchIn cs

/-- Literal single character. -/
def chOf (c : Char) : Re := .chr (fun x => x == c)

/-- Literal string. -/
def strLit (s : String) : Re := s.data.foldr (fun c r => .seq (chOf c) r) .eps

/-- JS `\s` character test (whitespace). -/
def wsP (c : Char) : Bool :=
  c == ' ' || c == '\t' || c == '\n' || c == '\r' || c == '\x0b' || c == '\x0c'

/-- `\s` as a regex atom. -/
def wsChr : Re := .chr wsP

/-- `\s+`. -/
def ws1 : Re := .seq wsChr (.star wsChr)

/-- `\s0OrMore` i.e. `\s*`. -/
def ws0 : Re := .star wsChr

/-- JS `.` (any character except line terminators; never the sentinel). -/
def dotP (c : Char) : Bool := !(c == '\n' || c == '\r' || c == eosChar)

/-- `.*`. -/
def anyStar : Re := .star (.chr dotP)

/-- Positive character class `[...]`. -/
def oneOf (cs : List Char) : Re := .chr (fun x => cs.contains x)

/-- Negated character class `[^...]` (never matches the sentinel, mirroring
that at end of input no character can be consumed). -/
def noneOf (cs : List Char) : Re := .chr (fun x => !(cs.contains x) && x != eosChar)

/-- `$` anchor, translated to the end-of-string sentinel. -/
def eosRe : Re := .chr (fun x => x == eosChar)

/-- `r?`. -/
def ropt (r : Re) : Re := .alt r .eps

/-- `r+`. -/
def rplus (r : Re) : Re := .seq r (.star r)

/-- `r1 r2 ... rn` sequencing of a list. -/
def cat (rs : List Re) : Re := rs.foldr .seq .eps

/-- `r1|r2|...|rn`. -/
def alts (rs : List Re) : Re := rs.foldr .alt .emp

/-- `(sh|bash|zsh)` shell alternation used by the pipe-to-shell checks. -/
def shellAlts : Re := alts [strLit "sh", strLit "bash", strLit "zsh"]

/-- The fixed catalogue of dangerous Bash command regexes blocked in auto
mode (`DANGEROUS_BASH_PATTERNS` in the permission handler), in source
order.  Each entry keeps the JS literal text for the reason string. -/
def DANGEROUS_BASH_PATTERNS : List JSRegex := [
  -- rm -rf *, rm /, rm ~, rm ..
  ⟨false, cat [strLit "rm", ws1, .star (cat [chOf '-', rplus (oneOf ['r', 'R', 'f']), ws1]),
     .star (.chr (fun c => !wsP c && c != eosChar)),
     alts [chOf '*', cat [chOf '/', ws0, eosRe], chOf '~', strLit ".."]],
   "/rm\\s+(-[rRf]+\\s+)*[^\\s]*(\\*|\\/\\s*$|~|\\.\\.)/"⟩,
  -- rm -rf /anything
  ⟨false, cat [strLit "rm", ws1, chOf '-', .star (oneOf ['r', 'R', 'f']), ws1, chOf '/'],
   "/rm\\s+-[rRf]*\\s+\\//"⟩,
  ⟨false, cat [strLit "git", ws1, strLit "push", ws1, anyStar, strLit "--force"],
   "/git\\s+push\\s+.*--force/"⟩,
  ⟨false, cat [strLit "git", ws1, strLit "push", ws1, strLit "-f"], "/git\\s+push\\s+-f/"⟩,
  ⟨false, cat [strLit "git", ws1, strLit "reset", ws1, strLit "--hard"], "/git\\s+reset\\s+--hard/"⟩,
  ⟨false, cat [strLit "git", ws1, strLit "clean", ws1, chOf '-', oneOf ['f', 'd', 'x']],
   "/git\\s+clean\\s+-[fdx]/"⟩,
  ⟨false, cat [strLit "git", ws1, strLit "checkout", ws1, chOf '.', ws0, eosRe],
   "/git\\s+checkout\\s+\\.\\s*$/"⟩,
  ⟨false, cat [strLit "git", ws1, strLit "restore", ws1, chOf '.', ws0, eosRe],
   "/git\\s+restore\\s+\\.\\s*$/"⟩,
  ⟨false, cat [strLit "sudo", ws1], "/sudo\\s+/"⟩,
  ⟨false, cat [strLit "chmod", ws1, ropt (cat [strLit "-R", ws1]), strLit "777"],
   "/chmod\\s+(-R\\s+)?777/"⟩,
  ⟨false, cat [strLit "chown", ws1, strLit "-R"], "/chown\\s+-R/"⟩,
  ⟨false, cat [strLit "curl", ws1, .star (noneOf ['|']), chOf '|', ws0, shellAlts],
   "/curl\\s+[^|]*\\|\\s*(sh|bash|zsh)/"⟩,
  ⟨false, cat [strLit "wget", ws1, .star (noneOf ['|']), chOf '|', ws0, shellAlts],
   "/wget\\s+[^|]*\\|\\s*(sh|bash|zsh)/"⟩,
  ⟨true, cat [ws0, strLit "env", ws0, eosRe], "/^\\s*env\\s*$/"⟩,
  ⟨true, cat [ws0, strLit "printenv", ws0, eosRe], "/^\\s*printenv\\s*$/"⟩,
  ⟨false, cat [strLit "cat", ws1, .star (.chr (fun c => !wsP c && c != eosChar)), strLit ".env"],
   "/cat\\s+[^\\s]*\\.env/"⟩,
  ⟨false, cat [strLit "kill", ws1, strLit "-9", ws1], "/kill\\s+-9\\s+/"⟩,
  ⟨false, cat [strLit "pkill", ws1], "/pkill\\s+/"⟩,
  ⟨false, cat [strLit "killall", ws1], "/killall\\s+/"⟩,
  ⟨false, cat [strLit "launchctl", ws1, alts [strLit "unload", strLit "remove", strLit "bootout"]],
   "/launchctl\\s+(unload|remove|bootout)/"⟩,
  ⟨false, cat [strLit "npm", ws1, strLit "publish"], "/npm\\s+publish/"⟩,
  ⟨false, cat [strLit "yarn", ws1, strLit "publish"], "/yarn\\s+publish/"⟩,
  ⟨false, strLit "mkfs.", "/mkfs\\./"⟩,
  ⟨false, cat [strLit "dd", ws1, strLit "if="], "/dd\\s+if=/"⟩,
  ⟨false, strLit "fdisk", "/fdisk/"⟩]

/-- Result of the dangerous-command check. -/
structure DangerResult where
  dangerous : Bool
  reason : Option String
deriving DecidableEq, Repr

/-- `isDangerousBashCommand`: first matching catalogue entry wins and its
literal text is embedded in the reason. -/
def isDangerousBashCommand (command : String) : DangerResult :=
  match DANGEROUS_BASH_PATTERNS.find? (fun p => p.test command) with
  | some p => ⟨true, some ("Command matches dangerous pattern: " ++ p.src)⟩
  | none => ⟨false, none⟩

/-- Split a character list on `/`. -/
def splitSlash : List Char → List (List Char)
  | [] => [[]]
  | c :: cs =>
      let rest := splitSlash cs
      if c == '/' then [] :: rest
      else match rest with
        | [] => [[c]]
        | seg :: segs => (c :: seg) :: segs

/-- Process `.` and `..` segments of an absolute path, POSIX style. -/
def normSegs (segs : List (List Char)) : List (List Char) :=
  segs.foldl (fun acc seg =>
    if seg == [] || seg == ['.'] then acc
    else if seg == ['.', '.'] then acc.dropLast
    else acc ++ [seg]) []

/-- Join path segments under a leading `/`. -/
def joinSegs (segs : List (List Char)) : List Char :=
  '/' :: (segs.intersperse ['/']).flatten

/-- Normalize an absolute POSIX path (model of Node `path.resolve` applied
to a single absolute argument). -/
def resolveAbs (p : String) : String :=
  String.mk (joinSegs (normSegs (splitSlash p.data)))

/-- Model of Node `path.resolve(workingDirectory, filePath)` for an
absolute working directory: an absolute `filePath` wins, a relative one is
resolved against the working directory. -/
def pathResolve (workingDirectory filePath : String) : String :=
  match filePath.data with
  | '/' :: _ => resolveAbs filePath
  | _ => resolveAbs (workingDirectory ++ "/" ++ filePath)

/-- Boolean string prefix test (model of JS `String.prototype.startsWith`). -/
def strStartsWith (s pre : String) : Bool := pre.data.isPrefixOf s.data

/-- Boolean string suffix test (model of JS `String.prototype.endsWith`). -/
def strEndsWith (s suf : String) : Bool := suf.data.isSuffixOf s.data

/-- `isWithinWorkingDirectory`: the resolved target must equal the resolved
working directory or live strictly inside it. -/
def isWithinWorkingDirectory (filePath workingDirectory : String) : Bool :=
  let resolvedPath := pathResolve workingDirectory filePath
  let resolvedWorkingDir := resolveAbs workingDirectory
  strStartsWith resolvedPath (resolvedWorkingDir ++ "/") || resolvedPath == resolvedWorkingDir

/-- Tool input record (the fields of `Record<string, unknown>` that the
permission handler inspects; a missing field is `none`). -/
structure ToolInput where
  command : Option String := none
  file_path : Option String := none
deriving DecidableEq, Repr

/-- Safety verdict of the auto-mode danger classifier. -/
structure SafetyResult where
  safe : Bool
  reason : Option String
deriving DecidableEq, Repr

/-- The Bash-command half of `checkAutoModeSafety`: a reason when the tool
is `Bash` and its string `command` matches the catalogue. -/
def bashUnsafe (toolName : String) (input : ToolInput) : Option String :=
  if toolName == "Bash" then
    match input.command with
    | some cmd =>
        let result := isDangerousBashCommand cmd
        if result.dangerous then result.reason else none
    | none => none
  else none

/-- The working-directory half of `checkAutoModeSafety`: a reason when a
boundary is configured, the tool writes/edits files, and the (truthy)
target path escapes the boundary. -/
def boundaryUnsafe (toolName : String) (input : ToolInput)
    (workingDirectory : Option String) : Option String :=
  match workingDirectory with
  | some wd =>
      if toolName == "Write" || toolName == "Edit" || toolName == "MultiEdit" then
        match input.file_path with
        | some fp =>
            if fp != "" && !isWithinWorkingDirectory fp wd then
              some ("File path \"" ++ fp ++ "\" is outside working directory \"" ++ wd ++ "\"")
            else none
        | none => none
      else none
  | none => none

/-- `checkAutoModeSafety`: the Bash check runs first, then the boundary
check; anything flagged by neither is presumed safe (fail-open). -/
def checkAutoModeSafety (toolName : String) (input : ToolInput)
    (workingDirectory : Option String) : SafetyResult :=
  match bashUnsafe toolName input with
  | some r => ⟨false, some r⟩
  | none =>
      match boundaryUnsafe toolName input workingDirectory with
      | some r => ⟨false, some r⟩
      | none => ⟨true, none⟩

/-! ### Approval coordinator (PermissionHandler / PermissionMCPServer) -/

/-- Allow/deny behaviours. -/
inductive Behavior where
  | allow : Behavior
  | deny : Behavior
deriving DecidableEq, Repr

/-- The resolution record deposited for a ticket and read back from the
approval file: `{behavior, updatedInput?, message?}`. -/
structure ApprovalResponse where
  behavior : Behavior
  updatedInput : Option ToolInput := none
  message : Option String := none
deriving DecidableEq, Repr

/-- The `PermissionResult` returned to the agent runtime. -/
structure PermissionResult where
  behavior : Behavior
  updatedInput : Option ToolInput := none
  message : Option String := none
deriving DecidableEq, Repr

/-- State of the approval file slot for one ticket at one poll tick. -/
inductive TickFile where
  | absent : TickFile
  | malformed : TickFile
  | present : ApprovalResponse → TickFile
deriving DecidableEq

/-- Outcome of one poll tick of `waitForApproval`. -/
inductive StepOutcome where
  | resolved : ApprovalResponse → StepOutcome
  | continuePolling : StepOutcome
deriving DecidableEq

/-- The 5-minute default deadline (`timeout = 5 * 60 * 1000`) of the
`waitForApproval` variants that implement one. -/
def approvalTimeoutMs : Nat := 5 * 60 * 1000

/-- One poll tick of the `waitForApproval` with a deadline (the earlier
PermissionHandler revision and the MCP server): the timeout check runs
first, then the approval file is consulted; a malformed file is ignored
and polling continues. -/
def checkApprovalStepTimed (elapsed : Nat) (file : TickFile) : StepOutcome :=
  if approvalTimeoutMs < elapsed then
    .resolved ⟨.deny, none, some "Permission request timed out"⟩
  else
    match file with
    | .present r => .resolved r
    | .malformed => .continuePolling
    | .absent => .continuePolling

/-- One poll tick of the current PermissionHandler's `waitForApproval`
(the auto-mode revision): only the approval file is consulted — the
function keeps `startTime`/elapsed for logging but never checks a
deadline. -/
def checkApprovalStepCurrent (elapsed : Nat) (file : TickFile) : StepOutcome :=
  match elapsed, file with
  | _, .present r => .resolved r
  | _, .malformed => .continuePolling
  | _, .absent => .continuePolling

/-- First resolution produced by the first `n` poll ticks of a wait. -/
def pollRun (step : Nat → StepOutcome) : Nat → Option ApprovalResponse
  | 0 => none
  | n + 1 =>
      match pollRun step n with
      | some r => some r
      | none =>
          match step n with
          | .resolved r => some r
          | .continuePolling => none

/-- In-memory state of one pending wait: whether it has settled, and
whether its approval file exists on disk. -/
structure WaitState where
  resolved : Bool
  approvalFilePresent : Bool
deriving DecidableEq, Repr

/-- The `abortHandler` installed on the cancellation signal (identical in
both PermissionHandler revisions): if the wait is unsettled it marks it
resolved and resolves `Deny` with reason "Request was aborted"; it
performs no file-system operation. -/
def abortHandler (st : WaitState) : WaitState × Option ApprovalResponse :=
  if st.resolved then (st, none)
  else ({ resolved := true, approvalFilePresent := st.approvalFilePresent },
        some ⟨.deny, none, some "Request was aborted"⟩)

/-- How `createCanUseToolCallback` turns the response read from the
approval file into the `PermissionResult` handed to the agent: on allow it
returns the original tool input, on deny the response's message (default
"Denied by user"). -/
def canUseToolResult (input : ToolInput) (response : ApprovalResponse) : PermissionResult :=
  match response.behavior with
  | .allow => ⟨.allow, some input, none⟩
  | .deny => ⟨.deny, none, some (response.message.getD "Denied by user")⟩

/-- The resolution record built by `PermissionMCPServer.resolveApproval`
when a button click reports `(approved, updatedInput?)`. -/
def resolveApprovalRecord (approved : Bool) (updatedInput : Option ToolInput) : ApprovalResponse :=
  { behavior := if approved then .allow else .deny,
    updatedInput := updatedInput,
    message := some (if approved then "Approved by user" else "Denied by user") }

/-- Slack context of the originating scope. -/
structure SlackContext where
  channel : String
  threadTs : Option String
  user : String
deriving DecidableEq, Repr

/-- A chat message posted by the coordinator; `interactive` records whether
it carries approve/deny action buttons. -/
structure SlackPost where
  channel : String
  threadTs : Option String
  interactive : Bool
  text : String
deriving DecidableEq, Repr

/-- Outcome of one invocation of the auto-mode permission callback: the
result returned to the agent plus every message posted to the scope. -/
structure AutoModeOutcome where
  result : PermissionResult
  posts : List SlackPost
deriving DecidableEq, Repr

/-- The callback produced by `createAutoModeCallback`: a safe verdict
allows immediately with the unchanged input and posts nothing; an unsafe
verdict posts one plain informational notification (text only, no action
buttons; the JSON pretty-printing of the input is abbreviated here) and
denies with the classifier's reason. -/
def autoModeCallback (ctx : SlackContext) (workingDirectory : Option String)
    (toolName : String) (input : ToolInput) : AutoModeOutcome :=
  let safetyCheck := checkAutoModeSafety toolName input workingDirectory
  if safetyCheck.safe then
    ⟨⟨.allow, some input, none⟩, []⟩
  else
    ⟨⟨.deny, none, some (safetyCheck.reason.getD "Operation blocked by auto mode")⟩,
     [{ channel := ctx.channel, threadTs := ctx.threadTs, interactive := false,
        text := "⛔ *Dangerous operation blocked*\n\nTool: `" ++ toolName ++ "`\nReason: "
          ++ safetyCheck.reason.getD "undefined"
          ++ "\n\nSwitch to `bypass on` if you want to allow all operations." }]⟩

/-! ### Permission mode store (BypassModeManager, three-mode revision) -/

/-- The three trust modes. -/
inductive PermissionMode where
  | approval : PermissionMode
  | bypass : PermissionMode
  | auto : PermissionMode
deriving DecidableEq, Repr

/-- JS whitespace test used by `String.prototype.trim` (restricted to the
ASCII whitespace actually reachable from chat text). -/
def isJsSpace (c : Char) : Bool :=
  decide (c.toNat = 32 ∨ c.toNat = 9 ∨ c.toNat = 10 ∨ c.toNat = 13 ∨
    c.toNat = 11 ∨ c.toNat = 12)

/-- ASCII lowercasing of one character (model of JS `toLowerCase` on the
command alphabet). -/
def jsToLower (c : Char) : Char :=
  if 65 ≤ c.toNat && c.toNat ≤ 90 then Char.ofNat (c.toNat + 32) else c

/-- `text.trim()` on character lists. -/
def jsTrimL (l : List Char) : List Char :=
  ((l.dropWhile isJsSpace).reverse.dropWhile isJsSpace).reverse

/-- `text.trim().toLowerCase()`, the normalization applied by
`parseModeCommand` before regex matching. -/
def normalizeCommand (text : String) : String :=
  String.mk ((jsTrimL text.data).map jsToLower)

/-- `(on|enable|enabled|true|1)`. -/
def onAlts : Re := alts [strLit "on", strLit "enable", strLit "enabled", strLit "true", strLit "1"]

/-- `(off|disable|disabled|false|0)`. -/
def offAlts : Re :=
  alts [strLit "off", strLit "disable", strLit "disabled", strLit "false", strLit "0"]

/-- `^word\s+alt$` command regex shape shared by the six mode commands. -/
def cmdRe (word : String) (alt : Re) : JSRegex :=
  ⟨true, cat [strLit word, ws1, alt, eosRe], word⟩

/-- `BypassModeManager.parseModeCommand`: case-insensitive `{auto | bypass
| approval} {on | off | ...}` phrases; turning a mode "off" yields the
fallback mode the source hard-codes; anything else is not a command. -/
def parseModeCommand (text : String) : Option PermissionMode :=
  let trimmed := normalizeCommand text
  if (cmdRe "auto" onAlts).test trimmed then some .auto
  else if (cmdRe "auto" offAlts).test trimmed then some .approval
  else if (cmdRe "bypass" onAlts).test trimmed then some .bypass
  else if (cmdRe "bypass" offAlts).test trimmed then some .approval
  else if (cmdRe "approval" onAlts).test trimmed then some .approval
  else if (cmdRe "approval" offAlts).test trimmed then some .bypass
  else none

/-! ### Claude handler (session store and query options) -/

/-- Scope key shared by the mode managers (`getKey`): thread key first,
then DM key, then bare channel. -/
def getKey (channelId : String) (threadTs : Option String) (userId : Option String) : String :=
  match threadTs with
  | some t => channelId ++ "-" ++ t
  | none =>
      match userId with
      | some u => if u != "" && strStartsWith channelId "D" then channelId ++ "-" ++ u else channelId
      | none => channelId

/-- `BypassModeManager.isBypassMode` of the boolean revision used by
`ClaudeHandler.streamQuery`: thread-scoped entry first, then channel/DM
entry, defaulting to `false`. -/
def isBypassModeStore (store : List (String × Bool)) (channelId : String)
    (threadTs : Option String) (userId : Option String) : Bool :=
  let threadHit :=
    match threadTs with
    | some t => store.lookup (getKey channelId (some t) none)
    | none => none
  match threadHit with
  | some b => b
  | none => (store.lookup (getKey channelId none userId)).getD false

/-- The permission-relevant part of the options record `streamQuery`
builds for the agent runtime. -/
structure StreamQueryOptions where
  permissionMode : String
  hasCanUseTool : Bool
deriving DecidableEq, Repr

/-- How `ClaudeHandler.streamQuery` configures permission gating: no Slack
context means bypass by default; the approval callback is installed only
when a Slack context is present and bypass mode is off. -/
def buildStreamQueryOptions (slackContext : Option SlackContext)
    (store : List (String × Bool)) : StreamQueryOptions :=
  let isBypassM :=
    match slackContext with
    | some ctx =>
        isBypassModeStore store ctx.channel ctx.threadTs
          (if strStartsWith ctx.channel "D" then some ctx.user else none)
    | none => true
  { permissionMode := if isBypassM then "bypassPermissions" else "default",
    hasCanUseTool := slackContext.isSome && !isBypassM }

/-! ### Dates

A JS `Date` is modelled by the UTC calendar components that
`toISOString` prints; `getTime` recovers the epoch-milliseconds value by
the standard civil-calendar computation, and `new Date(isoString)` is
modelled by positional parsing of the fixed-width ISO layout. -/

/-- UTC calendar components of a JS `Date`. -/
structure DateT where
  year : Nat
  month : Nat
  day : Nat
  hour : Nat
  minute : Nat
  second : Nat
  millis : Nat
deriving DecidableEq, Repr

/-- Two fixed-width decimal digits. -/
def pad2 (n : Nat) : List Char := [Nat.digitChar (n / 10 % 10), Nat.digitChar (n % 10)]

/-- Three fixed-width decimal digits. -/
def pad3 (n : Nat) : List Char :=
  [Nat.digitChar (n / 100 % 10), Nat.digitChar (n / 10 % 10), Nat.digitChar (n % 10)]

/-- Four fixed-width decimal digits. -/
def pad4 (n : Nat) : List Char :=
  [Nat.digitChar (n / 1000 % 10), Nat.digitChar (n / 100 % 10),
   Nat.digitChar (n / 10 % 10), Nat.digitChar (n % 10)]

/-- The character list of `date.toISOString()`:
`YYYY-MM-DDTHH:MM:SS.mmmZ`. -/
def isoChars (d : DateT) : List Char :=
  pad4 d.year ++ '-' :: pad2 d.month ++ '-' :: pad2 d.day ++
  'T' :: pad2 d.hour ++ ':' :: pad2 d.minute ++ ':' :: pad2 d.second ++
  '.' :: pad3 d.millis ++ ['Z']

/-- `date.toISOString()`. -/
def DateT.toISOString (d : DateT) : String := String.mk (isoChars d)

/-- Decimal value of a digit character. -/
def dVal (c : Char) : Nat := c.toNat - 48

/-- Positional parse of the fixed-width ISO layout (model of
`new Date(isoString)` on the strings the backup writes; anything else
falls back to the epoch). -/
def parseIsoChars : List Char → DateT
  | y1 :: y2 :: y3 :: y4 :: _ :: m1 :: m2 :: _ :: d1 :: d2 :: _ ::
    h1 :: h2 :: _ :: i1 :: i2 :: _ :: s1 :: s2 :: _ :: u1 :: u2 :: u3 :: _ :: [] =>
      ⟨dVal y1 * 1000 + dVal y2 * 100 + dVal y3 * 10 + dVal y4,
       dVal m1 * 10 + dVal m2, dVal d1 * 10 + dVal d2,
       dVal h1 * 10 + dVal h2, dVal i1 * 10 + dVal i2, dVal s1 * 10 + dVal s2,
       dVal u1 * 100 + dVal u2 * 10 + dVal u3⟩
  | _ => ⟨1970, 1, 1, 0, 0, 0, 0⟩

/-- `new Date(s)` for the ISO strings produced by `toISOString`. -/
def parseDate (s : String) : DateT := parseIsoChars s.data

/-- Components whose fixed-width rendering round-trips (true of every
value an actual `Date` produces). -/
def ValidDate (d : DateT) : Prop :=
  d.year < 10000 ∧ d.month < 100 ∧ d.day < 100 ∧ d.hour < 100 ∧
  d.minute < 100 ∧ d.second < 100 ∧ d.millis < 1000

instance (d : DateT) : Decidable (ValidDate d) := by
  unfold ValidDate; infer_instance

/-- Days since the epoch of a civil date (standard civil-from-days
inverse, as used by `Date`). -/
def daysFromCivil (y m d : Int) : Int :=
  let y' := if m ≤ 2 then y - 1 else y
  let era := (if 0 ≤ y' then y' else y' - 399) / 400
  let yoe := y' - era * 400
  let doy := (153 * (if 2 < m then m - 3 else m + 9) + 2) / 5 + d - 1
  let doe := yoe * 365 + yoe / 4 - yoe / 100 + doy
  era * 146097 + doe - 719468

/-- `date.getTime()`: epoch milliseconds of the components. -/
def DateT.getTime (d : DateT) : Int :=
  (((daysFromCivil d.year d.month d.day * 24 + d.hour) * 60 + d.minute) * 60
    + d.second) * 1000 + d.millis

/-! ### Session store and backup manager -/

/-- A resumable agent conversation (`ConversationSession`). -/
structure ConversationSession where
  userId : String
  channelId : String
  threadTs : Option String
  sessionId : Option String
  isActive : Bool
  lastActivity : DateT
deriving DecidableEq, Repr

/-- A serialized session as written into the snapshot
(`SerializedSession`): `lastActivity` becomes its ISO string. -/
structure SerializedSession where
  key : String
  userId : String
  channelId : String
  threadTs : Option String
  sessionId : Option String
  isActive : Bool
  lastActivity : String
deriving DecidableEq, Repr

/-- The snapshot value (`SessionBackup`); the JSON file layer is modelled
as storing this structured value (the temp-file-then-rename write means a
reader only ever observes a whole snapshot). -/
structure SessionBackup where
  sessions : List SerializedSession
  workingDirectories : List (String × String)
  timestamp : String
  version : Nat
deriving DecidableEq, Repr

/-- The serialization of one session table entry inside `saveBackup`. -/
def serializeSession (key : String) (s : ConversationSession) : SerializedSession :=
  ⟨key, s.userId, s.channelId, s.threadTs, s.sessionId, s.isActive,
   s.lastActivity.toISOString⟩

/-- `SessionBackupManager.saveBackup`: the snapshot value written to the
canonical file (session maps are modelled as association lists in
iteration order). -/
def saveBackup (sessions : List (String × ConversationSession))
    (workingDirectories : List (String × String)) (now : DateT) : SessionBackup :=
  { sessions := sessions.map (fun p => serializeSession p.1 p.2),
    workingDirectories := workingDirectories,
    timestamp := now.toISOString,
    version := 1 }

/-- The deserialization of one snapshot entry inside `restoreSessions`. -/
def deserializeSession (s : SerializedSession) : String × ConversationSession :=
  (s.key, ⟨s.userId, s.channelId, s.threadTs, s.sessionId, s.isActive,
           parseDate s.lastActivity⟩)

/-- `SessionBackupManager.restoreSessions`: rebuilds the session table and
working-directory map from a loaded snapshot. -/
def restoreSessions (backup : SessionBackup) :
    List (String × ConversationSession) × List (String × String) :=
  (backup.sessions.map deserializeSession, backup.workingDirectories)

/-- `ClaudeHandler.cleanupInactiveSessions`: a non-positive `maxAgeHours`
disables reaping entirely; otherwise every session whose last activity is
more than `maxAgeHours` hours before `nowMs` is removed. -/
def cleanupInactiveSessions (nowMs : Int) (maxAgeHours : Int)
    (sessions : List (String × ConversationSession)) :
    List (String × ConversationSession) :=
  if maxAgeHours ≤ 0 then sessions
  else
    let maxAge := maxAgeHours * 60 * 60 * 1000
    sessions.filter (fun p => !(decide (maxAge < nowMs - p.2.lastActivity.getTime)))

/-! ### Backup directory model

The backup directory is a (duplicate-free) list of file names.  The
canonical snapshot is `sessions.json`; historical copies are
`sessions-<timestamp>.json`. -/

/-- `now.toISOString().replace(/[:.]/g, '-')` on one character. -/
def colonDotToDash (c : Char) : Char := if c == ':' || c == '.' then '-' else c

/-- The minute-granularity stamp of a historical copy:
`toISOString().replace(/[:.]/g, '-').slice(0, 16)`. -/
def fmtTimestamp (now : DateT) : String :=
  String.mk (((isoChars now).map colonDotToDash).take 16)

/-- File name of the dated historical copy for `now`. -/
def tsName (now : DateT) : String := "sessions-" ++ fmtTimestamp now ++ ".json"

/-- The filter `f.startsWith('sessions-') && f.endsWith('.json')` that
`cleanupOldBackups` applies to directory entries. -/
def isDatedBackup (f : String) : Bool := strStartsWith f "sessions-" && strEndsWith f ".json"

/-- `files.sort().reverse()`: the dated names in descending (newest-first)
lexicographic order. -/
def sortFilesDesc (files : List String) : List String :=
  files.insertionSort (fun a b => b ≤ a)

/-- `SessionBackupManager.cleanupOldBackups`: keep the `keepCount` newest
dated copies and unlink the rest. -/
def cleanupOldBackups (keepCount : Nat) (dir : List String) : List String :=
  let files := sortFilesDesc (dir.filter isDatedBackup)
  if keepCount < files.length then
    let toDelete := files.drop keepCount
    dir.filter (fun f => !(toDelete.contains f))
  else dir

/-- `SessionBackupManager.createTimestampedBackup`: write the dated copy
unless one for the same minute already exists, then prune to 48. -/
def createTimestampedBackup (dir : List String) (now : DateT) : List String :=
  let timestampedFile := tsName now
  if dir.contains timestampedFile then dir
  else cleanupOldBackups 48 (timestampedFile :: dir)

/-- Ensure a file name is present (the temp-write-then-rename of the
canonical snapshot). -/
def writeFile (f : String) (dir : List String) : List String :=
  if dir.contains f then dir else f :: dir

/-- The directory effect of one `saveBackup` call: write the canonical
`sessions.json`, then always attempt the dated historical copy. -/
def saveBackupFs (dir : List String) (now : DateT) : List String :=
  createTimestampedBackup (writeFile "sessions.json" dir) now

/-- `startPeriodicBackup` as its sequence of save instants: `saveBackup`
runs immediately on start and then once per interval tick, so the head of
`times` is the startup save. -/
def startPeriodicBackupFs (times : List DateT) (dir : List String) : List String :=
  times.foldl saveBackupFs dir

/-! ## Theorems -/

/-- C1: in the current PermissionHandler revision an approval wait that
receives neither a resolution file nor a cancellation never settles: every
poll tick continues regardless of elapsed time, so no run of any length
produces a resolution — while the sibling implementation with a deadline
resolves `Deny` / "Permission request timed out" once 5 minutes have
elapsed. -/
theorem waitForApproval_current_never_times_out :
    (∀ elapsed : Nat, checkApprovalStepCurrent elapsed .absent = .continuePolling) ∧
    (∀ (elapsedAt : Nat → Nat) (n : Nat),
        pollRun (fun k => checkApprovalStepCurrent (elapsedAt k) .absent) n = none) ∧
    checkApprovalStepTimed (approvalTimeoutMs + 1) .absent =
      .resolved ⟨.deny, none, some "Permission request timed out"⟩ := by
  refine ⟨fun _ => rfl, fun elapsedAt n => ?_, by decide⟩
  induction n with
  | zero => rfl
  | succ n ih =>
      unfold pollRun
      rw [ih]
      rfl

/-- C3 (counterexample): a resolution record carrying a human-edited input
does not reach the caller — the callback returns the original tool input,
which differs from the deposited edited input. -/
theorem canUseToolResult_drops_edited_input :
    canUseToolResult { command := some "ls" }
        (resolveApprovalRecord true (some { command := some "ls -la" })) =
      ⟨.allow, some { command := some "ls" }, none⟩ ∧
    ({ command := some "ls" } : ToolInput) ≠ { command := some "ls -la" } := by
  exact ⟨rfl, by decide⟩

/-- C3 (amended): on an allow resolution the callback always returns the
original tool input and no message; any `updatedInput` in the resolution
record is ignored. -/
theorem canUseToolResult_allow_returns_original (input : ToolInput)
    (response : ApprovalResponse) (h : response.behavior = .allow) :
    canUseToolResult input response = ⟨.allow, some input, none⟩ := by
  unfold canUseToolResult
  rw [h]

/-- Witness for `canUseToolResult_allow_returns_original` at a concrete
allow record. -/
theorem canUseToolResult_allow_returns_original_witness :
    canUseToolResult { command := some "ls" } (resolveApprovalRecord true none) =
      ⟨.allow, some { command := some "ls" }, none⟩ :=
  canUseToolResult_allow_returns_original { command := some "ls" }
    (resolveApprovalRecord true none) (by decide)

/-- C4 (counterexample): aborting an unsettled wait whose approval file
exists resolves `Deny` / "Request was aborted" but leaves the approval
file in place — the abort path performs no file deletion. -/
theorem abortHandler_leaves_approval_file :
    abortHandler ⟨false, true⟩ =
      (⟨true, true⟩, some ⟨.deny, none, some "Request was aborted"⟩) := by
  decide

/-- C4 (amended): cancelling an unsettled wait settles it with `Deny` /
"Request was aborted" and leaves the presence of the approval file exactly
as it was. -/
theorem abortHandler_spec (st : WaitState) (h : st.resolved = false) :
    (abortHandler st).2 = some ⟨.deny, none, some "Request was aborted"⟩ ∧
    (abortHandler st).1.approvalFilePresent = st.approvalFilePresent ∧
    (abortHandler st).1.resolved = true := by
  unfold abortHandler
  rw [h]
  exact ⟨rfl, rfl, rfl⟩

/-- Witness for `abortHandler_spec` at a concrete unsettled state. -/
theorem abortHandler_spec_witness :
    (abortHandler ⟨false, false⟩).2 = some ⟨.deny, none, some "Request was aborted"⟩ ∧
    (abortHandler ⟨false, false⟩).1.approvalFilePresent = (⟨false, false⟩ : WaitState).approvalFilePresent ∧
    (abortHandler ⟨false, false⟩).1.resolved = true :=
  abortHandler_spec ⟨false, false⟩ rfl

/-- C5: the danger classifier flags `rm -rf /`, passes `ls -la`, flags a
`Write` escaping the working-directory boundary, passes one inside it, and
is fail-open: whenever neither the Bash-catalogue check nor the boundary
check fires, the verdict is safe. -/
theorem checkAutoModeSafety_spec :
    (checkAutoModeSafety "Bash" { command := some "rm -rf /" } none).safe = false ∧
    (checkAutoModeSafety "Bash" { command := some "ls -la" } none).safe = true ∧
    (checkAutoModeSafety "Write" { file_path := some "../../etc/passwd" }
        (some "/home/user/project")).safe = false ∧
    (checkAutoModeSafety "Write" { file_path := some "src/main.ts" }
        (some "/home/user/project")).safe = true ∧
    (∀ (toolName : String) (input : ToolInput) (wd : Option String),
        bashUnsafe toolName input = none → boundaryUnsafe toolName input wd = none →
        (checkAutoModeSafety toolName input wd).safe = true) := by
  refine ⟨by decide, by decide, by decide, by decide, fun toolName input wd h1 h2 => ?_⟩
  unfold checkAutoModeSafety
  rw [h1, h2]

/-- Witness for the fail-open part of `checkAutoModeSafety_spec` at a tool
neither check covers. -/
theorem checkAutoModeSafety_spec_witness :
    (checkAutoModeSafety "Read" { } none).safe = true :=
  checkAutoModeSafety_spec.2.2.2.2 "Read" { } none (by decide) (by decide)

/-- C10: a `streamQuery` call without a Slack context always runs with
`permissionMode = bypassPermissions` and no `canUseTool` callback, no
matter what any mode store contains. -/
theorem streamQuery_no_slack_context_bypasses (store : List (String × Bool)) :
    buildStreamQueryOptions none store =
      { permissionMode := "bypassPermissions", hasCanUseTool := false } := rfl

/-- An unsafe verdict of the classifier always carries a reason. -/
theorem checkAutoModeSafety_reason_of_unsafe (toolName : String) (input : ToolInput)
    (wd : Option String) (h : (checkAutoModeSafety toolName input wd).safe = false) :
    ∃ r, (checkAutoModeSafety toolName input wd).reason = some r := by
  unfold checkAutoModeSafety at h ⊢
  cases hb : bashUnsafe toolName input with
  | some r => exact ⟨r, rfl⟩
  | none =>
      rw [hb] at h
      cases hd : boundaryUnsafe toolName input wd with
      | some r => exact ⟨r, rfl⟩
      | none => rw [hd] at h; simp at h

/-- C2: the auto-mode callback allows a safe action immediately with the
unchanged input and posts nothing; an unsafe action is denied with the
classifier's reason after posting exactly one non-interactive
informational message into the scope — no approval request is ever
posted and no wait occurs. -/
theorem autoModeCallback_spec (ctx : SlackContext) (wd : Option String)
    (toolName : String) (input : ToolInput) :
    ((checkAutoModeSafety toolName input wd).safe = true →
       autoModeCallback ctx wd toolName input = ⟨⟨.allow, some input, none⟩, []⟩) ∧
    ((checkAutoModeSafety toolName input wd).safe = false →
       (autoModeCallback ctx wd toolName input).result.behavior = .deny ∧
       (autoModeCallback ctx wd toolName input).result.message =
         (checkAutoModeSafety toolName input wd).reason ∧
       (autoModeCallback ctx wd toolName input).posts.length = 1 ∧
       (∀ p ∈ (autoModeCallback ctx wd toolName input).posts,
          p.interactive = false ∧ p.channel = ctx.channel ∧ p.threadTs = ctx.threadTs)) := by
  constructor
  · intro h
    simp [autoModeCallback, h]
  · intro h
    obtain ⟨r, hr⟩ := checkAutoModeSafety_reason_of_unsafe toolName input wd h
    simp only [autoModeCallback, h, hr, Option.getD_some, Bool.false_eq_true, if_false]
    refine ⟨by trivial, by trivial, by trivial, ?_⟩
    intro p hp
    rw [List.mem_singleton] at hp
    subst hp
    exact ⟨rfl, rfl, rfl⟩

/-- Witness for `autoModeCallback_spec`: the safe branch at `ls -la` and
the unsafe branch at `rm -rf /`. -/
theorem autoModeCallback_spec_witness :
    autoModeCallback ⟨"C1", none, "U1"⟩ none "Bash" { command := some "ls -la" } =
      ⟨⟨.allow, some { command := some "ls -la" }, none⟩, []⟩ ∧
    (autoModeCallback ⟨"C1", none, "U1"⟩ none "Bash" { command := some "rm -rf /" }).result.behavior = .deny := by
  constructor
  · exact (autoModeCallback_spec ⟨"C1", none, "U1"⟩ none "Bash"
      { command := some "ls -la" }).1 (by decide)
  · exact ((autoModeCallback_spec ⟨"C1", none, "U1"⟩ none "Bash"
      { command := some "rm -rf /" }).2 (by decide)).1

/-- C9: a non-positive `maxAgeHours` makes the sweep a no-op on any session
table; a positive one retains exactly the sessions whose last activity is
at or after `now - maxAge` (removing precisely those that predate it). -/
theorem cleanupInactiveSessions_spec (nowMs maxAgeHours : Int)
    (sessions : List (String × ConversationSession)) :
    (maxAgeHours ≤ 0 → cleanupInactiveSessions nowMs maxAgeHours sessions = sessions) ∧
    (0 < maxAgeHours → ∀ p, p ∈ cleanupInactiveSessions nowMs maxAgeHours sessions ↔
        p ∈ sessions ∧ nowMs - maxAgeHours * 3600000 ≤ p.2.lastActivity.getTime) := by
  constructor
  · intro h
    unfold cleanupInactiveSessions
    rw [if_pos h]
  · intro h p
    unfold cleanupInactiveSessions
    rw [if_neg (by omega)]
    simp only [List.mem_filter, Bool.not_eq_true', decide_eq_false_iff_not, not_lt]
    constructor
    · rintro ⟨hm, hle⟩
      exact ⟨hm, by omega⟩
    · rintro ⟨hm, hle⟩
      exact ⟨hm, by omega⟩

/-- Witness for `cleanupInactiveSessions_spec`: the disabled sweep on the
empty table and the membership characterization for a fresh session. -/
theorem cleanupInactiveSessions_spec_witness :
    cleanupInactiveSessions 0 0 [] = [] ∧
    (("k", (⟨"u", "c", none, none, true, ⟨1970, 1, 1, 0, 0, 1, 0⟩⟩ : ConversationSession)) ∈
        cleanupInactiveSessions 3600000 1
          [("k", ⟨"u", "c", none, none, true, ⟨1970, 1, 1, 0, 0, 1, 0⟩⟩)] ↔
      ("k", (⟨"u", "c", none, none, true, ⟨1970, 1, 1, 0, 0, 1, 0⟩⟩ : ConversationSession)) ∈
        [("k", (⟨"u", "c", none, none, true, ⟨1970, 1, 1, 0, 0, 1, 0⟩⟩ : ConversationSession))] ∧
      (3600000 : Int) - 1 * 3600000 ≤
        (DateT.mk 1970 1 1 0 0 1 0).getTime) :=
  ⟨(cleanupInactiveSessions_spec 0 0 []).1 (by decide),
   (cleanupInactiveSessions_spec 3600000 1 _).2 (by decide) _⟩

/-- `Char.ofNat` below the surrogate range recovers its code point. -/
theorem toNat_ofNat_lt (n : Nat) (h : n < 55296) : (Char.ofNat n).toNat = n := by
  unfold Char.ofNat
  rw [dif_pos (Or.inl h)]
  rfl

/-- ASCII lowercasing never turns a character into (or out of)
whitespace. -/
theorem isJsSpace_jsToLower (c : Char) : isJsSpace (jsToLower c) = isJsSpace c := by
  unfold jsToLower
  by_cases h : (65 ≤ c.toNat && c.toNat ≤ 90) = true
  · rw [if_pos h]
    simp only [Bool.and_eq_true, decide_eq_true_eq] at h
    unfold isJsSpace
    rw [toNat_ofNat_lt (c.toNat + 32) (by omega)]
    exact decide_eq_decide.mpr (by omega)
  · rw [if_neg h]

/-- ASCII lowercasing is idempotent. -/
theorem jsToLower_idem (c : Char) : jsToLower (jsToLower c) = jsToLower c := by
  unfold jsToLower
  by_cases h : (65 ≤ c.toNat && c.toNat ≤ 90) = true
  · rw [if_pos h]
    simp only [Bool.and_eq_true, decide_eq_true_eq] at h
    rw [if_neg]
    rw [toNat_ofNat_lt (c.toNat + 32) (by omega)]
    simp only [Bool.and_eq_true, decide_eq_true_eq, not_and]
    omega
  · rw [if_neg h, if_neg h]

/-- Trimming commutes with lowercasing. -/
theorem jsTrimL_map_lower (l : List Char) :
    jsTrimL (l.map jsToLower) = (jsTrimL l).map jsToLower := by
  unfold jsTrimL
  have hcomp : (isJsSpace ∘ jsToLower) = isJsSpace := funext isJsSpace_jsToLower
  rw [List.dropWhile_map, hcomp, ← List.map_reverse, List.dropWhile_map, hcomp,
    ← List.map_reverse]

/-- Lowercasing the raw text does not change its normalization. -/
theorem normalizeCommand_lower (t : String) :
    normalizeCommand (String.mk (t.data.map jsToLower)) = normalizeCommand t := by
  unfold normalizeCommand
  show String.mk ((jsTrimL (t.data.map jsToLower)).map jsToLower) = _
  have hcomp : jsToLower ∘ jsToLower = jsToLower := funext fun c => jsToLower_idem c
  rw [jsTrimL_map_lower, List.map_map, hcomp]

/-- C6: `approval off` turns the gate fully off (`Bypass`), exactly like
`bypass on`; `bypass off` and `auto off` both fall back to `Approval`
(never to `Auto`); matching is case-insensitive; and text matching none of
the six command shapes yields no command. -/
theorem parseModeCommand_spec :
    parseModeCommand "approval off" = some .bypass ∧
    parseModeCommand "bypass on" = some .bypass ∧
    parseModeCommand "bypass off" = some .approval ∧
    parseModeCommand "auto off" = some .approval ∧
    (∀ t, parseModeCommand (String.mk (t.data.map jsToLower)) = parseModeCommand t) ∧
    (∀ t, (cmdRe "auto" onAlts).test (normalizeCommand t) = false →
       (cmdRe "auto" offAlts).test (normalizeCommand t) = false →
       (cmdRe "bypass" onAlts).test (normalizeCommand t) = false →
       (cmdRe "bypass" offAlts).test (normalizeCommand t) = false →
       (cmdRe "approval" onAlts).test (normalizeCommand t) = false →
       (cmdRe "approval" offAlts).test (normalizeCommand t) = false →
       parseModeCommand t = none) := by
  refine ⟨by decide, by decide, by decide, by decide, fun t => ?_, fun t h1 h2 h3 h4 h5 h6 => ?_⟩
  · unfold parseModeCommand
    rw [normalizeCommand_lower]
  · simp only [parseModeCommand, h1, h2, h3, h4, h5, h6, Bool.false_eq_true, if_false]

/-- Witness for `parseModeCommand_spec`: case-insensitivity at a concrete
mixed-case command and the no-command verdict on ordinary conversation. -/
theorem parseModeCommand_spec_witness :
    parseModeCommand (String.mk ("Auto On".data.map jsToLower)) = parseModeCommand "Auto On" ∧
    parseModeCommand "hello world" = none :=
  ⟨parseModeCommand_spec.2.2.2.2.1 "Auto On",
   parseModeCommand_spec.2.2.2.2.2 "hello world" (by decide) (by decide) (by decide)
     (by decide) (by decide) (by decide)⟩

/-- Code point of a decimal digit character. -/
theorem digitChar_toNat : ∀ d : Nat, d < 10 → (Nat.digitChar d).toNat = 48 + d := by decide

/-- A digit's fixed-width rendering recovers its value. -/
theorem dVal_digitChar (n : Nat) : dVal (Nat.digitChar (n % 10)) = n % 10 := by
  unfold dVal
  rw [digitChar_toNat (n % 10) (Nat.mod_lt n (by omega))]
  omega

/-- The ISO rendering of a date parses back to the same components. -/
theorem parseDate_toISOString (d : DateT) (h : ValidDate d) :
    parseDate d.toISOString = d := by
  cases d with
  | mk Y Mo Dd Hh Mi Ss Ms =>
      unfold ValidDate at h
      dsimp only at h
      obtain ⟨h1, h2, h3, h4, h5, h6, h7⟩ := h
      show parseIsoChars (isoChars ⟨Y, Mo, Dd, Hh, Mi, Ss, Ms⟩) = _
      simp only [isoChars, pad4, pad2, pad3, List.cons_append, List.nil_append]
      simp only [parseIsoChars, DateT.mk.injEq, dVal_digitChar]
      exact ⟨by omega, by omega, by omega, by omega, by omega, by omega, by omega⟩

/-- C8: restoring the snapshot written by `saveBackup` reproduces the
session table and the working-directory map exactly (the snapshot's own
`timestamp` is not part of the restored state). -/
theorem restoreSessions_saveBackup (sessions : List (String × ConversationSession))
    (workingDirectories : List (String × String)) (now : DateT)
    (h : ∀ p ∈ sessions, ValidDate p.2.lastActivity) :
    restoreSessions (saveBackup sessions workingDirectories now) =
      (sessions, workingDirectories) := by
  unfold restoreSessions saveBackup
  refine Prod.ext ?_ rfl
  show (sessions.map fun p => serializeSession p.1 p.2).map deserializeSession = sessions
  rw [List.map_map]
  induction sessions with
  | nil => rfl
  | cons p ps ih =>
      have hp := h p (List.mem_cons_self p ps)
      have hps := fun q hq => h q (List.mem_cons_of_mem p hq)
      simp only [List.map_cons, ih hps, List.cons.injEq, and_true]
      show deserializeSession (serializeSession p.1 p.2) = p
      unfold deserializeSession serializeSession
      show (p.1, ⟨p.2.userId, p.2.channelId, p.2.threadTs, p.2.sessionId, p.2.isActive,
        parseDate p.2.lastActivity.toISOString⟩) = p
      rw [parseDate_toISOString p.2.lastActivity hp]

/-- Witness for `restoreSessions_saveBackup` at a concrete one-session
table. -/
theorem restoreSessions_saveBackup_witness :
    restoreSessions (saveBackup
        [("u-c-direct", ⟨"u", "c", none, some "sess", true, ⟨2024, 5, 6, 7, 8, 9, 123⟩⟩)]
        [("c", "/home/user/project")] ⟨2024, 5, 6, 7, 9, 0, 0⟩) =
      ([("u-c-direct", ⟨"u", "c", none, some "sess", true, ⟨2024, 5, 6, 7, 8, 9, 123⟩⟩)],
       [("c", "/home/user/project")]) :=
  restoreSessions_saveBackup
    [("u-c-direct", ⟨"u", "c", none, some "sess", true, ⟨2024, 5, 6, 7, 8, 9, 123⟩⟩)]
    [("c", "/home/user/project")] ⟨2024, 5, 6, 7, 9, 0, 0⟩ (by decide)

/-- C7 (counterexample): the immediate startup save of
`startPeriodicBackup` already writes a dated historical copy — starting
the periodic backup over an empty directory leaves a
`sessions-<timestamp>.json` behind after the startup tick alone. -/
theorem startPeriodicBackup_startup_writes_dated_copy :
    startPeriodicBackupFs [⟨2024, 5, 6, 7, 8, 9, 123⟩] [] =
      ["sessions-2024-05-06T07-08.json", "sessions.json"] ∧
    ["sessions-2024-05-06T07-08.json", "sessions.json"].filter isDatedBackup =
      ["sessions-2024-05-06T07-08.json"] := by
  exact ⟨by decide, by decide⟩

/-- The dated-copy name always passes the `cleanupOldBackups` filter. -/
theorem isDatedBackup_tsName (now : DateT) : isDatedBackup (tsName now) = true := by
  unfold isDatedBackup tsName strStartsWith strEndsWith
  apply Bool.and_eq_true_iff.mpr
  constructor
  · rw [String.data_append, String.data_append, List.append_assoc,
      List.isPrefixOf_iff_prefix]
    exact List.prefix_append _ _
  · rw [String.data_append, List.isSuffixOf_iff_suffix]
    exact List.suffix_append _ _

/-- C7 (amended): a save tick in a minute that already has a dated copy
leaves the directory unchanged; otherwise the dated copy is written and
the dated copies are pruned oldest-first, retaining exactly the
`min (previous + 1) 48` lexicographically greatest (newest) names; and the
immediate startup tick of `startPeriodicBackup` performs exactly the same
full save as every periodic tick. -/
theorem createTimestampedBackup_spec (dir : List String) (now : DateT)
    (hnd : dir.Nodup) :
    (tsName now ∈ dir → createTimestampedBackup dir now = dir) ∧
    (tsName now ∉ dir →
       List.Perm ((createTimestampedBackup dir now).filter isDatedBackup)
         ((sortFilesDesc ((tsName now :: dir).filter isDatedBackup)).take 48) ∧
       ((createTimestampedBackup dir now).filter isDatedBackup).length =
         min ((dir.filter isDatedBackup).length + 1) 48) ∧
    (∀ (t : DateT) (ts : List DateT) (dir0 : List String),
       startPeriodicBackupFs (t :: ts) dir0 = startPeriodicBackupFs ts (saveBackupFs dir0 t)) := by
  refine ⟨fun hmem => ?_, fun hni => ?_, fun t ts dir0 => rfl⟩
  · unfold createTimestampedBackup
    rw [if_pos (List.elem_iff.mpr hmem)]
  · unfold createTimestampedBackup
    rw [if_neg (fun hc => hni (List.elem_iff.mp hc))]
    have hL : (tsName now :: dir).filter isDatedBackup =
        tsName now :: dir.filter isDatedBackup :=
      List.filter_cons_of_pos (isDatedBackup_tsName now)
    have hnodL : ((tsName now :: dir).filter isDatedBackup).Nodup := by
      rw [hL]
      exact List.nodup_cons.mpr
        ⟨fun hm => hni (List.mem_of_mem_filter hm), hnd.filter _⟩
    have hperm : List.Perm (sortFilesDesc ((tsName now :: dir).filter isDatedBackup))
        ((tsName now :: dir).filter isDatedBackup) :=
      List.perm_insertionSort _ _
    have hnods : (sortFilesDesc ((tsName now :: dir).filter isDatedBackup)).Nodup :=
      hperm.symm.nodup hnodL
    have hlenL : ((tsName now :: dir).filter isDatedBackup).length =
        (dir.filter isDatedBackup).length + 1 := by
      rw [hL]; rfl
    unfold cleanupOldBackups
    by_cases hlen : 48 <
        (sortFilesDesc ((tsName now :: dir).filter isDatedBackup)).length
    · rw [if_pos hlen]
      set sorted := sortFilesDesc ((tsName now :: dir).filter isDatedBackup) with hs
      have htd : sorted.take 48 ++ sorted.drop 48 = sorted := List.take_append_drop 48 sorted
      have hdisj : (sorted.take 48).Disjoint (sorted.drop 48) := by
        have := hnods
        rw [← htd] at this
        exact (List.nodup_append.mp this).2.2
      have hstep1 : ((tsName now :: dir).filter
            (fun f => !((sorted.drop 48).contains f))).filter isDatedBackup =
          (((tsName now :: dir).filter isDatedBackup).filter
            (fun f => !((sorted.drop 48).contains f))) :=
        List.filter_comm _ _ _
      have hstep2 : List.Perm (((tsName now :: dir).filter isDatedBackup).filter
            (fun f => !((sorted.drop 48).contains f)))
          (sorted.filter (fun f => !((sorted.drop 48).contains f))) :=
        (hperm.filter _).symm
      have hstep3 : sorted.filter (fun f => !((sorted.drop 48).contains f)) =
          sorted.take 48 := by
        nth_rewrite 2 [← htd]
        rw [List.filter_append]
        have hdropnil : (sorted.drop 48).filter
            (fun f => !((sorted.drop 48).contains f)) = [] :=
          List.filter_eq_nil_iff.mpr (fun a ha => by simpa using ha)
        have htake : (sorted.take 48).filter
            (fun f => !((sorted.drop 48).contains f)) = sorted.take 48 :=
          List.filter_eq_self.mpr (fun a ha => by
            have hnm : a ∉ sorted.drop 48 := fun hm => hdisj ha hm
            simpa using hnm)
        rw [hdropnil, htake, List.append_nil]
      have hfinal : List.Perm (((tsName now :: dir).filter
            (fun f => !((sorted.drop 48).contains f))).filter isDatedBackup)
          (sorted.take 48) := by
        rw [hstep1, ← hstep3]
        exact hstep2
      refine ⟨hfinal, ?_⟩
      rw [hfinal.length_eq, List.length_take]
      have : sorted.length = (dir.filter isDatedBackup).length + 1 := by
        rw [hperm.length_eq, hlenL]
      omega
    · rw [if_neg hlen]
      have hlens : (sortFilesDesc ((tsName now :: dir).filter isDatedBackup)).length =
          (dir.filter isDatedBackup).length + 1 := by
        rw [hperm.length_eq, hlenL]
      have htake : (sortFilesDesc ((tsName now :: dir).filter isDatedBackup)).take 48 =
          sortFilesDesc ((tsName now :: dir).filter isDatedBackup) :=
        List.take_of_length_le (by omega)
      rw [htake]
      exact ⟨hperm.symm, by rw [hlenL]; omega⟩

/-- Witness for `createTimestampedBackup_spec` on the empty directory. -/
theorem createTimestampedBackup_spec_witness :
    List.Perm ((createTimestampedBackup [] ⟨2024, 5, 6, 7, 8, 9, 123⟩).filter isDatedBackup)
      ((sortFilesDesc ((tsName ⟨2024, 5, 6, 7, 8, 9, 123⟩ :: []).filter isDatedBackup)).take 48) ∧
    ((createTimestampedBackup [] ⟨2024, 5, 6, 7, 8, 9, 123⟩).filter isDatedBackup).length =
      min ((([] : List String).filter isDatedBackup).length + 1) 48 :=
  (createTimestampedBackup_spec [] ⟨2024, 5, 6, 7, 8, 9, 123⟩ List.nodup_nil).2.1
    (List.not_mem_nil _)

end SlackBot
